import Mathlib

/-!
Verification of the fastn-context repository: the `#[main]` bootstrap
attribute of `fastn-context-macros/src/lib.rs`, and the context-tree /
status-snapshot core of `fastn-context`.

The crate root `fastn-context/src/lib.rs` declares `mod context;` and
`mod status;`, but the files `src/context.rs` and `src/status.rs` are not
part of the sources available here; the context/status definitions below
are therefore modelled from the specification (spec.md, sections 3, 4.1,
4.2, 4.3 and 8), as noted on each definition.  The bootstrap attribute is
embedded directly from its source.
-/

namespace FastnContext

/-! ## Part 1: the bootstrap attribute (`fastn-context-macros/src/lib.rs`)

The procedural attribute `main(_args, input)` parses `input` as an
`ItemFn` and emits a fixed scaffold: a synchronous `fn main` carrying the
input's attributes and visibility, returning
`Result<(), Box<dyn std::error::Error>>`, whose body builds a
multi-threaded tokio runtime with all features enabled, propagates a
build failure with `?`, and otherwise `block_on`s an async block that
awaits `__fastn_user_main()` and returns its result; plus the emitted
`async fn __fastn_user_main`, whose return type is written literally as
`Result<(), Box<dyn std::error::Error>>` and whose body is the input
function's block. -/

/-- Return types, to the extent the generated code distinguishes them:
the unit type `()`, the literal type `Result<(), Box<dyn std::error::Error>>`
written by the attribute, or anything else (kept as an uninterpreted
string of tokens). -/
inductive RustType where
  | unit
  | resultUnitBoxError
  | other (tokens : String)
deriving DecidableEq, Repr

/-- A function body (`syn::Block`): its tokens, uninterpreted, plus the
type its value has, which is all the typing argument below needs. -/
structure Block where
  tokens : List String
  ty : RustType
deriving DecidableEq, Repr

/-- The parsed input function (`syn::ItemFn`), restricted to the pieces
the attribute reads (`attrs`, `vis`, `block`) together with the pieces it
receives but discards (the function's name and its declared return type). -/
structure ItemFn where
  attrs : List String
  vis : String
  name : String
  retTy : RustType
  body : Block
deriving DecidableEq, Repr

/-- The runtime-builder call chain in the generated `fn main`:
`new_multi_thread()` (versus `new_current_thread()`) and `enable_all()`. -/
structure RuntimeSpec where
  multiThread : Bool
  enableAll : Bool
deriving DecidableEq, Repr

/-- A statement of the async block passed to `block_on`.  The generated
block could in principle initialise the global root context before
calling the user function; `initGlobalRoot` represents such a statement
so that its absence from the actual expansion is expressible. -/
inductive AsyncStmt where
  | initGlobalRoot
  | callUserMain
deriving DecidableEq, Repr

/-- The code emitted by the attribute: the generated `fn main` (its
attributes, visibility, return type, runtime-builder chain and async
block) and the generated `async fn __fastn_user_main` (its name, written
return type and body). -/
structure Expansion where
  mainAttrs : List String
  mainVis : String
  mainRet : RustType
  runtime : RuntimeSpec
  asyncBody : List AsyncStmt
  userFnName : String
  userFnRet : RustType
  userFnBody : Block
deriving DecidableEq, Repr

/-- The attribute itself, `pub fn main(_args: TokenStream, input: TokenStream)`:
`args` is received (as a token list) and never inspected; the output is the
fixed scaffold around the input's attributes, visibility and body.  The
emitted user function's return type is written literally as
`Result<(), Box<dyn std::error::Error>>`, independent of `f.retTy`. -/
def mainExpand (_args : List String) (f : ItemFn) : Expansion :=
  { mainAttrs := f.attrs
    mainVis := f.vis
    mainRet := RustType.resultUnitBoxError
    runtime := { multiThread := true, enableAll := true }
    asyncBody := [AsyncStmt.callUserMain]
    userFnName := "__fastn_user_main"
    userFnRet := RustType.resultUnitBoxError
    userFnBody := f.body }

/-- The generated user function is well-typed exactly when the value of
the emitted body has the return type written in the emitted signature. -/
def userFnWellTyped (e : Expansion) : Bool :=
  e.userFnBody.ty == e.userFnRet

/-- Observable events of one run of the generated `fn main`: an executor
(tokio runtime) was constructed, the global root context was initialised,
or the user's async body started being polled. -/
inductive Event where
  | executorStarted (multiThread : Bool)
  | globalRootInit
  | userPolled
deriving DecidableEq, Repr

/-- Run the async block: `initGlobalRoot` emits its event; the final
`callUserMain` awaits the user function (emitting `userPolled`) and the
block's value is the user's result, matching
`let result = __fastn_user_main().await; result`. -/
def runAsyncBody {Er : Type} (userRun : Except Er Unit) :
    List AsyncStmt → List Event × Except Er Unit
  | [] => ([], Except.ok ())
  | [AsyncStmt.callUserMain] => ([Event.userPolled], userRun)
  | AsyncStmt.initGlobalRoot :: rest =>
      let r := runAsyncBody userRun rest
      (Event.globalRootInit :: r.1, r.2)
  | AsyncStmt.callUserMain :: rest =>
      let r := runAsyncBody userRun rest
      (Event.userPolled :: r.1, r.2)

/-- Run the generated `fn main`: build the runtime (a failure is returned
through `?` without running anything else), then `block_on` the async
block.  `buildRuntime` is the environment's outcome of
`Builder::new_multi_thread().enable_all().build()`; `userRun` is the
outcome of the user's body.  Returns the event trace and main's result. -/
def runMain {Er : Type} (e : Expansion)
    (buildRuntime : RuntimeSpec → Except Er Unit)
    (userRun : Except Er Unit) : List Event × Except Er Unit :=
  match buildRuntime e.runtime with
  | Except.error err => ([], Except.error err)
  | Except.ok _ =>
      let r := runAsyncBody userRun e.asyncBody
      (Event.executorStarted e.runtime.multiThread :: r.1, r.2)

/-! ## Part 2: the context tree and status snapshots

Modelled from the spec: `fastn-context/src/lib.rs` declares
`mod context;` and `mod status;` and re-exports
`Context`, `ContextBuilder`, `global`, `ContextStatus`, `Status`,
`status` and `status_with_latest` from them, but `src/context.rs` and
`src/status.rs` are not among the available sources.  The definitions in
this part follow spec.md sections 3 (data model), 4.1 (builder / child /
cancel / is_cancelled), 4.2 (registry), 4.3 (status snapshot) and the
lifecycle paragraph.

A cancellation signal "derived from the parent's signal at creation such
that parent-cancel implies self-cancel, transitively to all descendants"
is represented by the `chain` of a node: the list of ids whose explicit
`cancel()` the node's signal observes, materialised at creation as the
node's own id consed onto the parent's chain.  A process state carries
the registry (every node ever registered, never eagerly removed), the set
of ids whose own signal has been fired, the set of ids whose owning
handle is still alive, the id allocator and a creation clock. -/

/-- Modelled from the spec: a `ContextNode` (spec section 3) — process-unique
`id`, immutable `name`, `parent_id` (`none` for a root), the derived
cancellation signal represented as the `chain` of observed ids, and
`created_at`.  The file src/context.rs that defines it is not in the
available sources. -/
structure ContextNode where
  id : Nat
  name : String
  parentId : Option Nat
  chain : List Nat
  createdAt : Nat
deriving DecidableEq, Repr

/-- Modelled from the spec: the process-wide mutable state — the
`ContextRegistry` (`nodes`, a weak index never eagerly pruned, spec
section 4.2), the set of ids whose own signal has been fired, the set of
ids still owned by a live `Context` handle (spec section 3, lifecycle),
the id allocator and the creation clock. -/
structure State where
  nodes : List ContextNode
  fired : List Nat
  live : List Nat
  nextId : Nat
  clock : Nat
deriving DecidableEq, Repr

/-- Boolean membership in a list of ids. -/
def memNat (i : Nat) : List Nat → Bool
  | [] => false
  | j :: rest => i == j || memNat i rest

/-- The state of a process before any context has been created. -/
def initState : State :=
  { nodes := [], fired := [], live := [], nextId := 0, clock := 0 }

/-- Modelled from the spec: the node allocated by `ContextBuilder::build()`
(spec section 4.1) — a fresh id, the given name, `parent_id` from the
optional parent, and the cancellation signal derived from the parent's
signal: the new chain is the fresh id consed onto the parent's chain (a
root gets a fresh unsignalled chain of just its own id). -/
def mkNode (s : State) (name : String) (parent : Option ContextNode) : ContextNode :=
  { id := s.nextId
    name := name
    parentId := parent.map ContextNode.id
    chain := s.nextId :: (match parent with
      | none => []
      | some p => p.chain)
    createdAt := s.clock }

/-- Modelled from the spec: the state change of `ContextBuilder::build()` —
the new node is registered in the `ContextRegistry` (spec section 4.2,
`register` called exactly once per node at build time), its handle is
live, and the id allocator and clock advance. -/
def buildState (s : State) (name : String) (parent : Option ContextNode) : State :=
  { nodes := mkNode s name parent :: s.nodes
    fired := s.fired
    live := (mkNode s name parent).id :: s.live
    nextId := s.nextId + 1
    clock := s.clock + 1 }

/-- Modelled from the spec: `ContextBuilder::build() -> Context` — returns
the owning handle to the new node together with the updated state. -/
def build (s : State) (name : String) (parent : Option ContextNode) :
    ContextNode × State :=
  (mkNode s name parent, buildState s name parent)

/-- Modelled from the spec: `Context::builder(name) -> ContextBuilder`
(spec section 4.1) — the builder accumulates the name and an optional
parent, `none` unless `.parent(ctx)` is called. -/
structure ContextBuilder where
  name : String
  parentOpt : Option ContextNode
deriving DecidableEq, Repr

/-- Modelled from the spec: `builder(name)` starts construction of a
root-level context. -/
def builder (name : String) : ContextBuilder :=
  { name := name, parentOpt := none }

/-- Modelled from the spec: `ContextBuilder::parent(ctx)` marks the
context under construction as a child of `ctx`. -/
def ContextBuilder.parent (b : ContextBuilder) (ctx : ContextNode) :
    ContextBuilder :=
  { b with parentOpt := some ctx }

/-- Modelled from the spec: `ContextBuilder::build()` applied to the
accumulated name and parent. -/
def ContextBuilder.build (b : ContextBuilder) (s : State) :
    ContextNode × State :=
  FastnContext.build s b.name b.parentOpt

/-- Modelled from the spec: `Context::child(name) -> Context`, the
convenience constructor for a child of `ctx` (spec section 4.1). -/
def child (s : State) (ctx : ContextNode) (name : String) :
    ContextNode × State :=
  build s name (some ctx)

/-- Modelled from the spec: `Context::cancel()` fires this node's own
cancellation signal; nothing else in the state changes (no tree walking —
propagation is a property of the derived chains). -/
def cancel (s : State) (n : ContextNode) : State :=
  { s with fired := n.id :: s.fired }

/-- Modelled from the spec: `Context::is_cancelled()` — a non-blocking
read of whether this node's own signal or any ancestor's has fired: some
id observed by the node's derived chain is in the fired set. -/
def is_cancelled (s : State) (n : ContextNode) : Bool :=
  n.chain.any (fun i => memNat i s.fired)

/-- Modelled from the spec: destruction of the last owning `Context`
handle of node id `i` (spec section 3, lifecycle) — the node becomes
unreachable for snapshots; the registry keeps its stale entry. -/
def dropHandle (s : State) (i : Nat) : State :=
  { s with live := s.live.filter (fun j => j != i) }

/-- Modelled from the spec: one entry of a status snapshot,
`{id, name, parent_id, cancelled, age}` (spec section 4.3). -/
structure ContextStatus where
  id : Nat
  name : String
  parentId : Option Nat
  cancelled : Bool
  age : Nat
deriving DecidableEq, Repr

/-- Modelled from the spec: the global status snapshot returned by
`status()`. -/
structure Status where
  contexts : List ContextStatus
deriving DecidableEq, Repr

/-- Modelled from the spec: `status() -> Status` (spec section 4.3) —
walks the registry, keeps exactly the entries whose non-owning reference
still upgrades (the owning handle is live), and records
`{id, name, parent_id, cancelled, age}` for each; dead entries are
skipped. -/
def status (s : State) : Status :=
  { contexts :=
      (s.nodes.filter (fun n => memNat n.id s.live)).map (fun n =>
        { id := n.id
          name := n.name
          parentId := n.parentId
          cancelled := is_cancelled s n
          age := s.clock - n.createdAt }) }

/-- Modelled from the spec: `status_with_latest()` — identical contract
to `status()`; with no caching in the minimal design the two walks are
the same (spec section 4.3). -/
def status_with_latest (s : State) : Status :=
  status s

/-- Modelled from the spec: "for all node N with parent P" and its
transitive closure — `Desc s p i` says the node with id `i` is a strict
descendant of the node with id `p`, through the registered parent links. -/
inductive Desc (s : State) : Nat → Nat → Prop where
  | base {p : Nat} {n : ContextNode} :
      n ∈ s.nodes → n.parentId = some p → Desc s p n.id
  | step {p q : Nat} {n : ContextNode} :
      Desc s p q → n ∈ s.nodes → n.parentId = some q → Desc s p n.id

/-- Well-formedness of a process state: registered ids are distinct and
below the allocator; every node's chain contains its own id and only ids
at most its own; a root's chain is exactly its own id; a child's chain is
its own id consed onto a registered parent's chain, and the parent's id
is strictly smaller.  All reachable states are well-formed
(`wf_reachable`). -/
def WfState (s : State) : Prop :=
  (s.nodes.map ContextNode.id).Nodup ∧
  (∀ n ∈ s.nodes, n.id < s.nextId) ∧
  (∀ n ∈ s.nodes,
    (∀ x ∈ n.chain, x ≤ n.id) ∧
    n.id ∈ n.chain ∧
    (n.parentId = none → n.chain = [n.id]) ∧
    (∀ p ∈ n.parentId.toList,
      p < n.id ∧ ∃ pn ∈ s.nodes, pn.id = p ∧ n.chain = n.id :: pn.chain))

instance (s : State) : Decidable (WfState s) := by
  unfold WfState
  infer_instance

/-- The states a process can actually reach: start empty; build a node
whose parent, if any, is registered; fire a registered node's signal;
drop a handle. -/
inductive Reachable : State → Prop where
  | init : Reachable initState
  | build {s : State} (name : String) (parent : Option ContextNode) :
      Reachable s → (∀ p, parent = some p → p ∈ s.nodes) →
      Reachable (buildState s name parent)
  | cancel {s : State} (n : ContextNode) :
      Reachable s → n ∈ s.nodes → Reachable (cancel s n)
  | drop {s : State} (i : Nat) :
      Reachable s → Reachable (dropHandle s i)

/-! Concrete states for witnesses: a root "app" with two children
"worker-1" and "worker-2", the scenario of spec section 8. -/

/-- The root context `R = builder("app").build()` of the witness scenario. -/
def rootNode : ContextNode := (ContextBuilder.build (builder "app") initState).1

/-- The state after building the root. -/
def sRoot : State := (ContextBuilder.build (builder "app") initState).2

/-- `C1 = R.child("worker-1")` of the witness scenario. -/
def workerNode : ContextNode := (child sRoot rootNode "worker-1").1

/-- The state after building the first child. -/
def sTree : State := (child sRoot rootNode "worker-1").2

/-- `C2 = R.child("worker-2")` of the witness scenario. -/
def worker2Node : ContextNode := (child sTree rootNode "worker-2").1

/-- The state after building both children. -/
def sTree2 : State := (child sTree rootNode "worker-2").2

/-- The state after additionally dropping the handle of "worker-1"
without cancelling it (the scenario of spec section 8). -/
def sDropC : State := dropHandle sTree2 workerNode.id

/-- A concrete input function for the bootstrap-attribute witnesses: an
async `main` whose body has type `()`. -/
def sampleFn : ItemFn :=
  { attrs := []
    vis := "pub"
    name := "main"
    retTy := RustType.unit
    body := { tokens := ["do_work"], ty := RustType.unit } }

/-- A concrete environment in which the runtime builder succeeds. -/
def okBuild : RuntimeSpec → Except String Unit := fun _ => Except.ok ()

/-! ## Helper lemmas -/

/-- `memNat` on a cons unfolds to an equality test plus the tail. -/
theorem memNat_cons (i j : Nat) (l : List Nat) :
    memNat i (j :: l) = ((i == j) || memNat i l) := rfl

/-- Duplicating the head of the fired list does not change membership. -/
theorem memNat_cons_dup (i j : Nat) (l : List Nat) :
    memNat i (j :: j :: l) = memNat i (j :: l) := by
  cases h : (i == j) <;> simp [memNat_cons, h]

/-- Two fired lists with the same membership function give the same
cancellation reading on every chain. -/
theorem any_memNat_congr (f g : List Nat) (h : ∀ i, memNat i f = memNat i g) :
    ∀ l : List Nat,
      (l.any fun i => memNat i f) = (l.any fun i => memNat i g) := by
  intro l
  induction l with
  | nil => rfl
  | cons a t ih => simp [List.any_cons, h a, ih]

/-- Firing the signal of a node whose id a chain does not observe leaves
the chain's cancellation reading unchanged. -/
theorem any_memNat_cons_of_not_mem (nid : Nat) (fired : List Nat)
    (l : List Nat) (hl : nid ∉ l) :
    (l.any fun i => memNat i (nid :: fired)) = (l.any fun i => memNat i fired) := by
  induction l with
  | nil => rfl
  | cons a t ih =>
      have ha : (a == nid) = false := by
        simp only [beq_eq_false_iff_ne, ne_eq]
        intro he
        subst he
        exact hl (List.mem_cons_self a t)
      have ht : nid ∉ t := fun hm => hl (List.mem_cons_of_mem a hm)
      rw [List.any_cons, List.any_cons, memNat_cons, ha, ih ht]
      simp

/-- `cancel n` leaves `is_cancelled` unchanged on any node whose chain
does not observe `n.id`. -/
theorem is_cancelled_cancel_of_not_mem (s : State) (n X : ContextNode)
    (h : n.id ∉ X.chain) :
    is_cancelled (cancel s n) X = is_cancelled s X :=
  any_memNat_cons_of_not_mem n.id s.fired X.chain h

/-- In a well-formed state, the id of every strict ancestor of a node is
observed by the node's derived cancellation chain. -/
theorem desc_mem_chain {s : State} (hwf : WfState s) {p i : Nat}
    (h : Desc s p i) : ∀ n ∈ s.nodes, n.id = i → p ∈ n.chain := by
  obtain ⟨hnodup, _, hnodes⟩ := hwf
  induction h with
  | base hn hpar =>
      intro m hm hmid
      rename_i n
      have hmn : m = n := List.inj_on_of_nodup_map hnodup hm hn hmid
      subst hmn
      obtain ⟨hlt, pn, hpnmem, hpnid, hchain⟩ :=
        (hnodes m hm).2.2.2 p (by simp [hpar])
      rw [hchain]
      exact List.mem_cons_of_mem _ (hpnid ▸ (hnodes pn hpnmem).2.1)
  | step hq hn hpar ih =>
      intro m hm hmid
      rename_i n
      have hmn : m = n := List.inj_on_of_nodup_map hnodup hm hn hmid
      subst hmn
      rename_i q
      obtain ⟨hlt, pn, hpnmem, hpnid, hchain⟩ :=
        (hnodes m hm).2.2.2 q (by simp [hpar])
      rw [hchain]
      exact List.mem_cons_of_mem _ (ih pn hpnmem hpnid)

/-! ## Claim theorems -/

/-- C2: for every node N with ancestor P (through parent links,
transitively), after P's cancellation signal is fired by `P.cancel()`,
`N.is_cancelled()` returns true with no further action on N. -/
theorem cancel_propagates_to_descendants (s : State) (hwf : WfState s)
    (P N : ContextNode) (hN : N ∈ s.nodes) (hdesc : Desc s P.id N.id) :
    is_cancelled (cancel s P) N = true := by
  have hmem : P.id ∈ N.chain := desc_mem_chain hwf hdesc N hN rfl
  show N.chain.any (fun i => memNat i (P.id :: s.fired)) = true
  rw [List.any_eq_true]
  exact ⟨P.id, hmem, by simp [memNat_cons]⟩

/-- Instance of C2 on the concrete tree: cancelling the root "app"
cancels its child "worker-1". -/
theorem cancel_propagates_to_descendants_witness :
    is_cancelled (cancel sTree2 rootNode) workerNode = true :=
  cancel_propagates_to_descendants sTree2 (by decide) rootNode workerNode
    (by decide) (Desc.base (n := workerNode) (by decide) (by decide))

/-- C3: for every node N, firing N's cancellation leaves `is_cancelled`
of N's parent P and of every sibling M of N unchanged: cancellation
never propagates upward or sideways. -/
theorem cancel_does_not_affect_parent_or_siblings (s : State)
    (hwf : WfState s) (N P M : ContextNode)
    (hN : N ∈ s.nodes) (hP : P ∈ s.nodes) (hM : M ∈ s.nodes)
    (hNpar : N.parentId = some P.id) (hMpar : M.parentId = N.parentId)
    (hMN : M ≠ N) :
    is_cancelled (cancel s N) P = is_cancelled s P ∧
    is_cancelled (cancel s N) M = is_cancelled s M := by
  obtain ⟨hnodup, hbound, hnodes⟩ := hwf
  have hPidlt : P.id < N.id :=
    ((hnodes N hN).2.2.2 P.id (by simp [hNpar])).1
  have hPchain : ∀ x ∈ P.chain, x ≤ P.id := (hnodes P hP).1
  have hnotP : N.id ∉ P.chain := by
    intro hm
    have := hPchain N.id hm
    omega
  refine ⟨is_cancelled_cancel_of_not_mem s N P hnotP, ?_⟩
  have hMparP : M.parentId = some P.id := hMpar.trans hNpar
  obtain ⟨hlt, pn, hpnmem, hpnid, hchain⟩ :=
    (hnodes M hM).2.2.2 P.id (by simp [hMparP])
  have hMid : M.id ≠ N.id := fun he =>
    hMN (List.inj_on_of_nodup_map hnodup hM hN he)
  have hpnchain : ∀ x ∈ pn.chain, x ≤ pn.id := (hnodes pn hpnmem).1
  have hnotM : N.id ∉ M.chain := by
    rw [hchain]
    intro hm
    rcases List.mem_cons.mp hm with he | hm2
    · exact hMid he.symm
    · have := hpnchain N.id hm2
      omega
  exact is_cancelled_cancel_of_not_mem s N M hnotM

/-- Instance of C3 on the concrete tree: cancelling "worker-1" changes
neither its parent "app" nor its sibling "worker-2". -/
theorem cancel_does_not_affect_parent_or_siblings_witness :
    is_cancelled (cancel sTree2 workerNode) rootNode =
      is_cancelled sTree2 rootNode ∧
    is_cancelled (cancel sTree2 workerNode) worker2Node =
      is_cancelled sTree2 worker2Node :=
  cancel_does_not_affect_parent_or_siblings sTree2 (by decide) workerNode
    rootNode worker2Node (by decide) (by decide) (by decide) (by decide)
    (by decide) (by decide)

/-- Two states with the same registry, live set and clock whose
cancellation readings agree on every node produce the same snapshot. -/
theorem status_congr_cancelled (s₁ s₂ : State) (hn : s₁.nodes = s₂.nodes)
    (hl : s₁.live = s₂.live) (hc : s₁.clock = s₂.clock)
    (hcan : ∀ m : ContextNode, is_cancelled s₁ m = is_cancelled s₂ m) :
    status s₁ = status s₂ := by
  have h : ∀ l : List ContextNode,
      (l.map fun m => ContextStatus.mk m.id m.name m.parentId
        (is_cancelled s₁ m) (s₂.clock - m.createdAt)) =
      (l.map fun m => ContextStatus.mk m.id m.name m.parentId
        (is_cancelled s₂ m) (s₂.clock - m.createdAt)) := by
    intro l
    induction l with
    | nil => rfl
    | cons a t ih => simp only [List.map_cons, hcan a, ih]
  unfold status
  rw [hn, hl, hc]
  exact congrArg Status.mk (h _)

/-- C4: `ctx.child(name)` is observably equivalent to
`builder(name).parent(ctx).build()`: the two calls produce the same
handle and the same state, and the produced context has the given name,
`parent_id` equal to ctx's id, a cancellation signal derived from ctx's
(its chain is its own fresh id consed onto ctx's chain), and an id fresh
with respect to every registered node. -/
theorem child_equiv_builder (s : State) (ctx : ContextNode) (name : String)
    (hwf : WfState s) :
    child s ctx name =
      ContextBuilder.build (ContextBuilder.parent (builder name) ctx) s ∧
    (child s ctx name).1.name = name ∧
    (child s ctx name).1.parentId = some ctx.id ∧
    (child s ctx name).1.chain = (child s ctx name).1.id :: ctx.chain ∧
    s.nodes.all (fun n => n.id != (child s ctx name).1.id) = true := by
  refine ⟨rfl, rfl, rfl, rfl, ?_⟩
  rw [List.all_eq_true]
  intro n hn
  have hlt : n.id < s.nextId := hwf.2.1 n hn
  have hne : n.id ≠ s.nextId := Nat.ne_of_lt hlt
  simpa [child, build, mkNode] using hne

/-- Instance of C4 on the concrete tree: building "worker-1" under the
root "app" through `child` and through the builder chain coincide and
yield the stated fields. -/
theorem child_equiv_builder_witness :
    child sRoot rootNode "worker-1" =
      ContextBuilder.build (ContextBuilder.parent (builder "worker-1") rootNode) sRoot ∧
    (child sRoot rootNode "worker-1").1.name = "worker-1" ∧
    (child sRoot rootNode "worker-1").1.parentId = some rootNode.id ∧
    (child sRoot rootNode "worker-1").1.chain =
      (child sRoot rootNode "worker-1").1.id :: rootNode.chain ∧
    sRoot.nodes.all
      (fun n => n.id != (child sRoot rootNode "worker-1").1.id) = true :=
  child_equiv_builder sRoot rootNode "worker-1" (by decide)

/-- C5: calling `cancel()` twice on the same node yields the same
observable state as calling it once: every node's `is_cancelled` reading
and the status snapshot are unchanged by the second call. -/
theorem cancel_idempotent (s : State) (n : ContextNode) :
    (∀ m : ContextNode,
      is_cancelled (cancel (cancel s n) n) m = is_cancelled (cancel s n) m) ∧
    status (cancel (cancel s n) n) = status (cancel s n) := by
  have hcan : ∀ m : ContextNode,
      is_cancelled (cancel (cancel s n) n) m = is_cancelled (cancel s n) m := by
    intro m
    show (m.chain.any fun i => memNat i (n.id :: n.id :: s.fired)) =
      (m.chain.any fun i => memNat i (n.id :: s.fired))
    exact any_memNat_congr _ _ (fun i => memNat_cons_dup i n.id s.fired) m.chain
  exact ⟨hcan, status_congr_cancelled _ _ rfl rfl rfl hcan⟩

/-- C6: a node whose last owning handle was dropped before `status()` is
called is excluded from the snapshot: no returned entry carries its id. -/
theorem status_excludes_dropped (s : State) (i : Nat)
    (hdead : memNat i s.live = false) :
    (status s).contexts.all (fun e => e.id != i) = true := by
  rw [List.all_eq_true]
  intro e he
  unfold status at he
  simp only [List.mem_map] at he
  obtain ⟨m, hm, rfl⟩ := he
  have h2 : memNat m.id s.live = true := (List.mem_filter.mp hm).2
  simp only [bne_iff_ne, ne_eq]
  intro heq
  rw [heq] at h2
  rw [h2] at hdead
  exact Bool.noConfusion hdead

/-- Instance of C6 on the concrete tree: after dropping the handle of
"worker-1" without cancelling, no entry of `status()` carries its id. -/
theorem status_excludes_dropped_witness :
    (status sDropC).contexts.all (fun e => e.id != workerNode.id) = true :=
  status_excludes_dropped sDropC workerNode.id (by decide)

/-- C7: when the runtime builds, the generated `fn main` returns the
user body's outcome unchanged: `Ok(())` stays `Ok` (process success) and
`Err(e)` stays that same `Err` (process failure). -/
theorem generated_main_returns_user_result {Er : Type} (args : List String)
    (f : ItemFn) (buildRuntime : RuntimeSpec → Except Er Unit)
    (userRun : Except Er Unit)
    (hbuild : buildRuntime (mainExpand args f).runtime = Except.ok ()) :
    (runMain (mainExpand args f) buildRuntime userRun).2 = userRun := by
  unfold runMain
  rw [hbuild]
  rfl

/-- Instance of C7 at a concrete program: the sample function's outcome,
an `Ok` and an `Err`, passes through the generated main unchanged. -/
theorem generated_main_returns_user_result_witness :
    (runMain (mainExpand [] sampleFn) okBuild (Except.ok ())).2 =
      Except.ok () ∧
    (runMain (mainExpand [] sampleFn) okBuild (Except.error "boom")).2 =
      Except.error "boom" :=
  ⟨generated_main_returns_user_result [] sampleFn okBuild (Except.ok ()) rfl,
   generated_main_returns_user_result [] sampleFn okBuild
     (Except.error "boom") rfl⟩

/-- C8: a run of the generated `fn main` constructs exactly one executor,
that executor is built via the multi-thread runtime builder, and its
construction precedes the polling of the user's async body: the event
trace is exactly executor start followed by the user poll. -/
theorem generated_main_single_multithread_executor {Er : Type}
    (args : List String) (f : ItemFn)
    (buildRuntime : RuntimeSpec → Except Er Unit) (userRun : Except Er Unit)
    (hbuild : buildRuntime (mainExpand args f).runtime = Except.ok ()) :
    (runMain (mainExpand args f) buildRuntime userRun).1 =
      [Event.executorStarted true, Event.userPolled] ∧
    ((runMain (mainExpand args f) buildRuntime userRun).1.countP
      (fun e => match e with
        | Event.executorStarted _ => true
        | _ => false)) = 1 := by
  unfold runMain
  rw [hbuild]
  exact ⟨rfl, rfl⟩

/-- Instance of C8 at a concrete program: the trace of the generated
main is one multi-thread executor start followed by the user poll. -/
theorem generated_main_single_multithread_executor_witness :
    (runMain (mainExpand [] sampleFn) okBuild (Except.ok ())).1 =
      [Event.executorStarted true, Event.userPolled] ∧
    ((runMain (mainExpand [] sampleFn) okBuild (Except.ok ())).1.countP
      (fun e => match e with
        | Event.executorStarted _ => true
        | _ => false)) = 1 :=
  generated_main_single_multithread_executor [] sampleFn okBuild
    (Except.ok ()) rfl

/-- C9: the emitted user function's return type is written as
`Result<(), Box<dyn std::error::Error>>` whatever the input declares;
changing the input's declared return type does not change the expansion;
and an input whose body has type `()` makes the emitted user function
ill-typed, although the attribute's documentation lists `()` among the
supported return types. -/
theorem user_fn_ret_type_fixed (args : List String) (f : ItemFn)
    (t : RustType) (h : f.body.ty = RustType.unit) :
    (mainExpand args f).userFnRet = RustType.resultUnitBoxError ∧
    mainExpand args { f with retTy := t } = mainExpand args f ∧
    userFnWellTyped (mainExpand args f) = false := by
  refine ⟨rfl, rfl, ?_⟩
  have he : userFnWellTyped (mainExpand args f) =
      (f.body.ty == RustType.resultUnitBoxError) := rfl
  rw [he, h]
  rfl

/-- Instance of C9 at a concrete program: the sample function has a
`()`-typed body and its expansion is ill-typed at the user function. -/
theorem user_fn_ret_type_fixed_witness :
    (mainExpand [] sampleFn).userFnRet = RustType.resultUnitBoxError ∧
    mainExpand [] { sampleFn with retTy := RustType.resultUnitBoxError } =
      mainExpand [] sampleFn ∧
    userFnWellTyped (mainExpand [] sampleFn) = false :=
  user_fn_ret_type_fixed [] sampleFn RustType.resultUnitBoxError rfl

/-- C10: the attribute's expansion never depends on the attribute
arguments: for any two argument token streams and the same input
function, the emitted code is identical. -/
theorem expansion_ignores_attribute_args (a1 a2 : List String)
    (f : ItemFn) : mainExpand a1 f = mainExpand a2 f := rfl

/-- C1: the code generated by the attribute performs no global-root
initialisation before (or after) polling the user's async body — the run
trace of the generated main never contains a `globalRootInit` event, for
any input function and any user outcome.  This contradicts the comment
`Global context automatically created` placed in the generated block and
the attribute's stated contract. -/
theorem generated_main_never_creates_global_root (args : List String)
    (f : ItemFn) (userRun : Except String Unit) :
    ((runMain (mainExpand args f) (fun _ => Except.ok ()) userRun).1.all
      (fun e => e != Event.globalRootInit)) = true := rfl

/-! ## Reachability implies well-formedness -/

/-- The empty initial state is well-formed. -/
theorem wfState_initState : WfState initState := by decide

/-- Building a node under a registered parent (or as a root) preserves
well-formedness. -/
theorem wfState_buildState (s : State) (hwf : WfState s) (name : String)
    (parent : Option ContextNode)
    (hp : ∀ p, parent = some p → p ∈ s.nodes) :
    WfState (buildState s name parent) := by
  obtain ⟨hnodup, hbound, hnodes⟩ := hwf
  refine ⟨?_, ?_, ?_⟩
  · show ((mkNode s name parent :: s.nodes).map ContextNode.id).Nodup
    rw [List.map_cons]
    refine List.nodup_cons.mpr ⟨?_, hnodup⟩
    intro hm
    rw [List.mem_map] at hm
    obtain ⟨n, hn, hid⟩ := hm
    have := hbound n hn
    simp only [mkNode] at hid
    omega
  · intro n hn
    rcases List.mem_cons.mp hn with rfl | hn2
    · show (mkNode s name parent).id < s.nextId + 1
      simp [mkNode]
    · have := hbound n hn2
      show n.id < s.nextId + 1
      omega
  · intro n hn
    rcases List.mem_cons.mp hn with rfl | hn2
    · cases parent with
      | none =>
          refine ⟨?_, ?_, fun _ => rfl, ?_⟩
          · intro x hx
            rcases List.mem_cons.mp hx with rfl | hx2
            · exact Nat.le_refl _
            · exact absurd hx2 (List.not_mem_nil x)
          · exact List.mem_cons_self _ _
          · intro q hq
            simp [mkNode] at hq
      | some p =>
          have hpmem : p ∈ s.nodes := hp p rfl
          have hplt : p.id < s.nextId := hbound p hpmem
          refine ⟨?_, List.mem_cons_self _ _, ?_, ?_⟩
          · intro x hx
            rcases List.mem_cons.mp hx with rfl | hx2
            · exact Nat.le_refl _
            · have := (hnodes p hpmem).1 x hx2
              show x ≤ s.nextId
              omega
          · intro hnone
            simp [mkNode] at hnone
          · intro q hq
            have hq2 : q = p.id := by simpa [mkNode] using hq
            subst hq2
            exact ⟨hplt, p, List.mem_cons_of_mem _ hpmem, rfl, rfl⟩
    · have hold := hnodes n hn2
      refine ⟨hold.1, hold.2.1, hold.2.2.1, ?_⟩
      intro q hq
      obtain ⟨hlt, pn, hpnmem, hpnid, hchain⟩ := hold.2.2.2 q hq
      exact ⟨hlt, pn, List.mem_cons_of_mem _ hpnmem, hpnid, hchain⟩

/-- Every state a process can reach is well-formed, so the `WfState`
hypotheses of the theorems above hold along every actual execution. -/
theorem wf_reachable {s : State} (h : Reachable s) : WfState s := by
  induction h with
  | init => exact wfState_initState
  | build name parent hr hp ih => exact wfState_buildState _ ih name parent hp
  | cancel n hr hn ih => exact ih
  | drop i hr ih => exact ih

end FastnContext
